import Mathlib

/-!
Verification of src/results/fetch_results.py.

The script iterates over a tuple TYPES of experiment categories and, for
each category, over the list EXPT_IDS[t] of integer experiment
identifiers, invoking the external command
  rsync -vPrR supercloud:research/FastDEQ.jl/logs/data-CIFAR10_type-<t>_size-TINY_discrete-false_jfb-false/./<id>/ cifar10/tiny
once per (category, identifier) pair.  The development below embeds the
script as a pure function producing the list of subprocess invocations it
issues, together with a small model of the directory state produced by
the relative-path-preserving copy semantics.
-/

namespace FetchResults

/-- The tuple TYPES of the script: the three experiment categories, in
declaration order. -/
def TYPES : List String := ["SKIPV2", "SKIP", "VANILLA"]

/-- The dict EXPT_IDS of the script, as an association list in declaration
order: each category's ordered list of integer experiment identifiers. -/
def EXPT_IDS : List (String × List Nat) :=
  [("SKIPV2", [18010267, 18010268, 18010269]),
   ("SKIP", [18014477, 18010271, 18010272]),
   ("VANILLA", [18014141, 18014142, 18014144])]

/-- Dictionary lookup EXPT_IDS[t]: `some` of the identifier list when the
key is present, `none` when the subscript would raise KeyError. -/
def lookupIds (t : String) : Option (List Nat) :=
  (EXPT_IDS.find? (fun p => p.1 == t)).map (fun p => p.2)

/-- The remote source argument of the rsync call, exactly as the script's
f-string builds it from the category and the identifier. -/
def sourcePath (t : String) (i : Nat) : String :=
  "supercloud:research/FastDEQ.jl/logs/data-CIFAR10_type-" ++ t ++
    "_size-TINY_discrete-false_jfb-false/./" ++ toString i ++ "/"

/-- The fixed local destination argument of every rsync call. -/
def destDir : String := "cifar10/tiny"

/-- The full argument vector passed to subprocess.run for one pair. -/
def rsyncArgv (t : String) (i : Nat) : List String :=
  ["rsync", "-vPrR", sourcePath t i, destDir]

/-- One recorded subprocess invocation: the pair it was issued for and the
argument vector passed to subprocess.run. -/
structure Invocation where
  category : String
  identifier : Nat
  argv : List String
deriving DecidableEq

/-- The module-level double loop of the script: for each category in TYPES
(outer, in order) and each identifier in EXPT_IDS[t] (inner, in order) it
issues one rsync invocation.  A missing dictionary key would raise
KeyError, modelled by the error branch. -/
def runFetcher : Except String (List Invocation) :=
  TYPES.foldlM (fun acc t =>
    match lookupIds t with
    | none => Except.error ("KeyError: " ++ t)
    | some l => Except.ok (acc ++ l.map (fun i => ⟨t, i, rsyncArgv t i⟩))) []

/-- The sequence of invocations the script issues (empty in the
unreachable KeyError case). -/
def invocations : List Invocation :=
  match runFetcher with
  | Except.ok l => l
  | Except.error _ => []

/-- The same double loop, with the exit status of each subprocess recorded
from an arbitrary status oracle.  subprocess.run without check=True never
raises on a nonzero exit status, so the only error branch is the KeyError
one; the loop body ignores the returned CompletedProcess. -/
def runWithStatus (status : List String → Int) :
    Except String (List (List String × Int)) :=
  TYPES.foldlM (fun acc t =>
    match lookupIds t with
    | none => Except.error ("KeyError: " ++ t)
    | some l => Except.ok
        (acc ++ l.map (fun i => (rsyncArgv t i, status (rsyncArgv t i))))) []

/-- Modelled from the spec: the second near-identical copy of this script
is not among the staged source files; per the spec the two copies differ
only in a few Identifier values and are otherwise the same loop (same
categories, same path template, same destination).  The copy is therefore
modelled as the script's loop parameterised by its category-to-identifiers
mapping. -/
def runFetcherWithIds (ids : String → Option (List Nat)) :
    Except String (List Invocation) :=
  TYPES.foldlM (fun acc t =>
    match ids t with
    | none => Except.error ("KeyError: " ++ t)
    | some l => Except.ok (acc ++ l.map (fun i => ⟨t, i, rsyncArgv t i⟩))) []

/-- The spec's path template, instantiated at alias, base path, dataset
name, size label, category and identifier.  Written from the spec's words,
to be compared with sourcePath. -/
def specTemplate (a b dataset size : String) (t : String) (i : Nat) : String :=
  a ++ ":" ++ b ++ "/data-" ++ dataset ++ "_type-" ++ t ++ "_size-" ++ size ++
    "_discrete-false_jfb-false/./" ++ toString i ++ "/"

/-- ASCII lowercasing of a string, used to state that the destination is
the lowercase dataset name followed by the lowercase size label. -/
def lowerChar (c : Char) : Char :=
  if 'A' ≤ c ∧ c ≤ 'Z' then Char.ofNat (c.toNat + 32) else c

/-- ASCII lowercasing of a string, character by character. -/
def lowerAscii (s : String) : String := ⟨s.data.map lowerChar⟩

/-- Whether the second string is a suffix of the first. -/
def endsIn (s tail : String) : Bool := tail.data.isSuffixOf s.data

/-- The option letters of a combined command-line option token: its
characters with the leading hyphens removed. -/
def flagLetters (s : String) : List Char := s.data.filter (fun c => c ≠ '-')

/-- Everything after the first occurrence of the rsync relative-path
marker.  The marker is the three-character sequence slash dot slash. -/
def afterDotSlash : List Char → List Char
  | [] => []
  | '/' :: '.' :: '/' :: rest => rest
  | _ :: rest => afterDotSlash rest

/-- The path suffix rsync -R reproduces under the destination: the part of
the source after the relative-path marker. -/
def relSuffix (src : String) : String := ⟨afterDotSlash src.data⟩

/-- A directory tree modelled as an association list from paths to
contents. -/
def setEntry (m : List (String × String)) (k v : String) :
    List (String × String) :=
  if ∃ q ∈ m, q.1 = k then m.map (fun q => if q.1 = k then (k, v) else q)
  else m ++ [(k, v)]

/-- One fold step writing the entry of key a to its value. -/
def stepEntry {α : Type} (key val : α → String)
    (m : List (String × String)) (a : α) : List (String × String) :=
  setEntry m (key a) (val a)

/-- The destination path a transfer of the (source, destination) pair
writes: the destination directory joined with the source's relative
suffix. -/
def transferKey (p : String × String) : String := p.2 ++ "/" ++ relSuffix p.1

/-- The (source, destination) argument pairs of the script's invocations. -/
def sdPairs : List (String × String) :=
  invocations.map (fun inv => (inv.argv.getD 2 "", inv.argv.getD 3 ""))

/-- Running the script's transfers over a directory state, with the copy
tool modelled as idempotently storing the remote contents of each source
at the transfer's destination path. -/
def applyRun (remote : String → String) (m : List (String × String)) :
    List (String × String) :=
  sdPairs.foldl (stepEntry transferKey (fun p => remote p.1)) m

/-- A map whose function fixes every member of the list is the identity. -/
lemma map_eq_self_of {l : List (String × String)}
    {f : String × String → String × String} (h : ∀ q ∈ l, f q = q) :
    l.map f = l := by
  induction l with
  | nil => rfl
  | cons a t ih =>
      simp only [List.map_cons, h a (List.mem_cons_self a t)]
      exact congrArg _ (ih (fun q hq => h q (List.mem_cons_of_mem a hq)))

/-- After writing key k, every stored entry of key k is the written pair. -/
lemma setEntry_mem_eq {m : List (String × String)} {k v : String} :
    ∀ q ∈ setEntry m k v, q.1 = k → q = (k, v) := by
  intro q hq hk
  unfold setEntry at hq
  by_cases hc : ∃ p ∈ m, p.1 = k
  · rw [if_pos hc] at hq
    obtain ⟨p, hp, hfp⟩ := List.mem_map.mp hq
    by_cases hpk : p.1 = k
    · rw [if_pos hpk] at hfp
      exact hfp.symm
    · rw [if_neg hpk] at hfp
      exact absurd (hfp ▸ hk) hpk
  · rw [if_neg hc] at hq
    rcases List.mem_append.mp hq with hq | hq
    · exact absurd ⟨q, hq, hk⟩ hc
    · simpa using hq

/-- Writing key k leaves entries of other keys untouched. -/
lemma setEntry_mem_ne {m : List (String × String)} {k v : String} :
    ∀ q ∈ setEntry m k v, q.1 ≠ k → q ∈ m := by
  intro q hq hk
  unfold setEntry at hq
  by_cases hc : ∃ p ∈ m, p.1 = k
  · rw [if_pos hc] at hq
    obtain ⟨p, hp, hfp⟩ := List.mem_map.mp hq
    by_cases hpk : p.1 = k
    · rw [if_pos hpk] at hfp
      exact absurd (congrArg Prod.fst hfp.symm) hk
    · rw [if_neg hpk] at hfp
      exact hfp ▸ hp
  · rw [if_neg hc] at hq
    rcases List.mem_append.mp hq with hq | hq
    · exact hq
    · exact absurd (congrArg Prod.fst (by simpa using hq)) hk

/-- After writing key k, an entry of key k is stored. -/
lemma setEntry_mem_self {m : List (String × String)} {k v : String} :
    ∃ q ∈ setEntry m k v, q.1 = k := by
  unfold setEntry
  by_cases hc : ∃ p ∈ m, p.1 = k
  · rw [if_pos hc]
    obtain ⟨p, hp, hpk⟩ := hc
    refine ⟨(k, v), List.mem_map.mpr ⟨p, hp, ?_⟩, rfl⟩
    rw [if_pos hpk]
  · rw [if_neg hc]
    exact ⟨(k, v), List.mem_append.mpr (Or.inr (by simp)), rfl⟩

/-- Writing another key preserves presence of key k. -/
lemma setEntry_mem_mono {m : List (String × String)} {k v k0 : String}
    (h : ∃ q ∈ m, q.1 = k0) : ∃ q ∈ setEntry m k v, q.1 = k0 := by
  by_cases hk : k0 = k
  · exact hk ▸ setEntry_mem_self
  · obtain ⟨q, hq, hqk⟩ := h
    unfold setEntry
    by_cases hc : ∃ p ∈ m, p.1 = k
    · rw [if_pos hc]
      refine ⟨q, List.mem_map.mpr ⟨q, hq, ?_⟩, hqk⟩
      rw [if_neg (fun hqk1 => hk (hqk ▸ hqk1))]
    · rw [if_neg hc]
      exact ⟨q, List.mem_append.mpr (Or.inl hq), hqk⟩

/-- A fold of writes whose keys all differ from k preserves both the
presence of key k and the values stored at it. -/
lemma foldl_stepEntry_preserve {α : Type} (key val : α → String)
    (qs : List α) (m : List (String × String)) (k v : String)
    (hk : ∀ a ∈ qs, key a ≠ k)
    (hmem : ∃ q ∈ m, q.1 = k)
    (hval : ∀ q ∈ m, q.1 = k → q = (k, v)) :
    (∃ q ∈ qs.foldl (stepEntry key val) m, q.1 = k) ∧
    (∀ q ∈ qs.foldl (stepEntry key val) m, q.1 = k → q = (k, v)) := by
  induction qs generalizing m with
  | nil => exact ⟨hmem, hval⟩
  | cons a t ih =>
      simp only [List.foldl_cons]
      have hval2 : ∀ q ∈ stepEntry key val m a, q.1 = k → q = (k, v) := by
        intro q hq hqk
        have hne : q.1 ≠ key a := fun h =>
          hk a (List.mem_cons_self a t) (h ▸ hqk)
        exact hval q (setEntry_mem_ne q hq hne) hqk
      exact ih _ (fun b hb => hk b (List.mem_cons_of_mem a hb))
        (setEntry_mem_mono hmem) hval2

/-- After folding a list of writes with pairwise distinct keys over any
initial state, each written key is present and holds its written value. -/
lemma foldl_stepEntry_saturated {α : Type} (key val : α → String)
    (ps : List α) (m : List (String × String))
    (hnd : (ps.map key).Nodup) :
    ∀ a ∈ ps,
      (∃ q ∈ ps.foldl (stepEntry key val) m, q.1 = key a) ∧
      (∀ q ∈ ps.foldl (stepEntry key val) m, q.1 = key a →
        q = (key a, val a)) := by
  induction ps generalizing m with
  | nil => intro a ha; exact absurd ha (List.not_mem_nil a)
  | cons p t ih =>
      intro a ha
      simp only [List.map_cons, List.nodup_cons] at hnd
      simp only [List.foldl_cons]
      rcases List.mem_cons.mp ha with rfl | hat
      · refine foldl_stepEntry_preserve key val t _ (key a) (val a)
          (fun b hb h => hnd.1 (h ▸ List.mem_map_of_mem key hb))
          setEntry_mem_self (fun q hq => setEntry_mem_eq q hq)
      · exact ih _ hnd.2 a hat

/-- Folding writes over a state already holding every written key at its
written value changes nothing. -/
lemma foldl_stepEntry_eq_self {α : Type} (key val : α → String)
    (ps : List α) (m : List (String × String))
    (hsat : ∀ a ∈ ps, (∃ q ∈ m, q.1 = key a) ∧
      (∀ q ∈ m, q.1 = key a → q = (key a, val a))) :
    ps.foldl (stepEntry key val) m = m := by
  induction ps with
  | nil => rfl
  | cons a t ih =>
      have hstep : stepEntry key val m a = m := by
        obtain ⟨hmem, hval⟩ := hsat a (List.mem_cons_self a t)
        unfold stepEntry setEntry
        rw [if_pos hmem]
        refine map_eq_self_of ?_
        intro q hq
        by_cases hqk : q.1 = key a
        · rw [if_pos hqk, hval q hq hqk]
        · rw [if_neg hqk]
      simp only [List.foldl_cons, hstep]
      exact ih (fun b hb => hsat b (List.mem_cons_of_mem a hb))

/-- Re-running a fold of writes with pairwise distinct keys over its own
output changes nothing. -/
lemma foldl_stepEntry_idem {α : Type} (key val : α → String)
    (ps : List α) (hnd : (ps.map key).Nodup) :
    ps.foldl (stepEntry key val) (ps.foldl (stepEntry key val) []) =
      ps.foldl (stepEntry key val) [] :=
  foldl_stepEntry_eq_self key val ps _
    (foldl_stepEntry_saturated key val ps [] hnd)

/-- The spec's path template at the script's constants agrees with the
script's f-string for every category and identifier. -/
lemma specTemplate_eq_sourcePath (t : String) (i : Nat) :
    specTemplate "supercloud" "research/FastDEQ.jl/logs" "CIFAR10" "TINY" t i =
      sourcePath t i := by
  simp [sourcePath, specTemplate, String.append_assoc]

/-- Claim C1: the script issues exactly one rsync invocation per
(category, identifier) pair, in declaration order with categories as the
outer loop and identifiers as the inner loop; the total count equals the
sum of the lengths of the identifier lists, which is 9. -/
theorem fetcher_one_call_per_pair_in_order :
    runFetcher = Except.ok invocations ∧
    invocations.map (fun inv => (inv.category, inv.identifier)) =
      [("SKIPV2", 18010267), ("SKIPV2", 18010268), ("SKIPV2", 18010269),
       ("SKIP", 18014477), ("SKIP", 18010271), ("SKIP", 18010272),
       ("VANILLA", 18014141), ("VANILLA", 18014142), ("VANILLA", 18014144)] ∧
    invocations.length = (EXPT_IDS.map (fun p => p.2.length)).sum ∧
    (EXPT_IDS.map (fun p => p.2.length)).sum = 9 :=
  ⟨rfl, by decide, by decide, by decide⟩

/-- Claim C2: every invocation's source argument equals the spec's path
template instantiated at alias supercloud, base research/FastDEQ.jl/logs,
dataset CIFAR10, size TINY, its category and its identifier; in
particular the pair (SKIP, 18010271) is invoked and its source path ends
in type-SKIP_size-TINY_discrete-false_jfb-false/./18010271/. -/
theorem source_path_matches_template :
    invocations.all (fun inv =>
      inv.argv.getD 2 "" ==
        specTemplate "supercloud" "research/FastDEQ.jl/logs" "CIFAR10" "TINY"
          inv.category inv.identifier) = true ∧
    (⟨"SKIP", 18010271, rsyncArgv "SKIP" 18010271⟩ : Invocation) ∈
      invocations ∧
    endsIn (sourcePath "SKIP" 18010271)
      "type-SKIP_size-TINY_discrete-false_jfb-false/./18010271/" = true :=
  ⟨by decide, by decide, by decide⟩

/-- Claim C3: every one of the exactly 9 invocations uses the same fixed
local destination argument, the literal cifar10/tiny, which is the ASCII
lowercasing of the dataset name CIFAR10 followed by the lowercasing of
the size label TINY. -/
theorem destination_fixed_lowercase :
    invocations.length = 9 ∧
    invocations.all (fun inv => inv.argv.getD 3 "" == destDir) = true ∧
    destDir = lowerAscii "CIFAR10" ++ "/" ++ lowerAscii "TINY" :=
  ⟨by decide, by decide, by decide⟩

/-- Claim C4, counterexample: the claim says each invocation carries only
a verbose flag, a recursive flag and a relative-path-preserving flag
besides source and destination, but the first invocation's combined
option token -vPrR also carries the partial-progress option letter P,
which is none of the three claimed letters v, r, R. -/
theorem rsync_has_partial_flag_beyond_claim :
    (invocations.map Invocation.argv).getD 0 [] =
      ["rsync", "-vPrR", sourcePath "SKIPV2" 18010267, destDir] ∧
    'P' ∈ flagLetters (((invocations.map Invocation.argv).getD 0 []).getD 1 "") ∧
    'P' ∉ (['v', 'r', 'R'] : List Char) :=
  ⟨by decide, by decide, by decide⟩

/-- Claim C4, amended: each subprocess invocation is constructed with
exactly these arguments and no others: the program name, a single
combined option token whose letters are exactly verbose (v),
partial-progress (P), recursive (r) and relative-path-preserving (R), the
source specification built by sourcePath, and the destination directory. -/
theorem rsync_argv_exact :
    invocations.all (fun inv =>
      inv.argv ==
        ["rsync", "-vPrR", sourcePath inv.category inv.identifier, destDir])
      = true ∧
    flagLetters "-vPrR" = ['v', 'P', 'r', 'R'] ∧
    invocations.all (fun inv => inv.argv.length == 4) = true :=
  ⟨by decide, by decide, by decide⟩

/-- Claim C5: the category set is a fixed enumerated set of three distinct
string labels, the identifier mapping is defined for every category, and
every category's identifier list is non-empty. -/
theorem static_configuration_invariant :
    TYPES.length = 3 ∧ TYPES.Nodup ∧
    TYPES.all (fun t => (lookupIds t).isSome) = true ∧
    TYPES.all (fun t => !((lookupIds t).getD []).isEmpty) = true :=
  ⟨by decide, by decide, by decide, by decide⟩

/-- Claim C6: the fetcher is idempotent: the sequence of (source,
destination) invocation pairs is identical on every run regardless of the
exit statuses the external tool returns, and — with the external tool
modelled as idempotently storing each source's remote contents at the
transfer's destination path — re-running the whole fetch over the
directory state left by a first run reproduces that state exactly. -/
theorem fetcher_rerun_idempotent :
    (∀ s₁ s₂ : List String → Int,
      (runWithStatus s₁).map (List.map Prod.fst) =
        (runWithStatus s₂).map (List.map Prod.fst)) ∧
    (∀ remote : String → String,
      applyRun remote (applyRun remote []) = applyRun remote []) :=
  ⟨fun _ _ => rfl,
   fun remote =>
     foldl_stepEntry_idem transferKey (fun p => remote p.1) sdPairs
       (by decide)⟩

/-- Claim C7: the repository's second near-identical copy of the script
(modelled from the spec, parameterised by its identifier mapping) behaves
like this one up to identifier values: the script itself is the instance
at its own mapping, and for any identifier mapping under which the copy
runs without a KeyError, every invocation it issues uses a category from
the same TYPES tuple, the same path template and the same destination. -/
theorem second_copy_equivalent_up_to_ids :
    runFetcherWithIds lookupIds = runFetcher ∧
    ∀ ids2 : String → Option (List Nat), ∀ l : List Invocation,
      runFetcherWithIds ids2 = Except.ok l →
      l.all (fun inv =>
        TYPES.contains inv.category &&
        inv.argv ==
          ["rsync", "-vPrR",
            specTemplate "supercloud" "research/FastDEQ.jl/logs" "CIFAR10"
              "TINY" inv.category inv.identifier,
            destDir]) = true := by
  constructor
  · rfl
  · intro ids2 l h
    rcases e1 : ids2 "SKIPV2" with _ | l1 <;>
      rcases e2 : ids2 "SKIP" with _ | l2 <;>
        rcases e3 : ids2 "VANILLA" with _ | l3 <;>
          simp only [runFetcherWithIds, TYPES, List.foldlM, e1, e2, e3,
            bind, Except.bind, pure, Except.pure, List.nil_append,
            reduceCtorEq, Except.ok.injEq] at h
    subst h
    simp only [List.all_append, List.all_map, Bool.and_eq_true,
      List.all_eq_true, Function.comp]
    refine ⟨⟨?_, ?_⟩, ?_⟩ <;>
      intro x hx <;>
        obtain ⟨i, hi, rfl⟩ := List.mem_map.mp hx <;>
          simp [rsyncArgv, specTemplate_eq_sourcePath, TYPES]

/-- Claim C8: the fetcher continues on error: whatever exit status the
external tool returns for each call, no exception is raised and every
(category, identifier) pair is attempted exactly once, in order. -/
theorem fetcher_continues_on_error (status : List String → Int) :
    runWithStatus status =
      Except.ok (invocations.map (fun inv => (inv.argv, status inv.argv))) :=
  rfl

/-- Claim C9: every element of the iterated TYPES tuple is a key of the
identifier mapping, so the lookup in the loop body always succeeds and
the KeyError branch is unreachable: the run returns the full invocation
list and never an error. -/
theorem lookup_total_error_unreachable :
    TYPES.all (fun t => (lookupIds t).isSome) = true ∧
    runFetcher = Except.ok invocations ∧
    ∀ e : String, runFetcher ≠ Except.error e :=
  ⟨by decide, rfl, fun _ h => nomatch h⟩

/-- Claim C10: the nine identifiers are pairwise distinct across the three
categories, and so are the nine constructed source paths: no remote
directory is requested twice. -/
theorem source_paths_injective :
    invocations.length = 9 ∧
    (invocations.map Invocation.identifier).Nodup ∧
    (invocations.map (fun inv => inv.argv.getD 2 "")).Nodup :=
  ⟨by decide, by decide, by decide⟩

end FetchResults
